import Mathlib

/-!
Shallow embedding of the notes application backend
(`src/backend/server.js` and `src/backend/database.js`).

The SQLite store is modelled as an explicit state (`DB`) of user rows and
note rows threaded through every operation.  SQL timestamps
(`CURRENT_TIMESTAMP`) are modelled by an explicit `now : Nat` parameter.
JavaScript values that may be `undefined`/missing are modelled as
`Option`; JS truthiness on strings is `jsTruthy`.  A JS number that may be
`NaN` (the result of `parseInt` on a non-numeric string) is modelled as
`Option Int`, with `none` standing for `NaN`; an SQL comparison
`id = NaN` matches no row, exactly as the `none` case below.
-/

/-- JS truthiness of an optional string: `undefined` and `""` are falsy. -/
def jsTruthy : Option String → Bool
  | none => false
  | some s => s ≠ ""

/-- JS `a || b` for an optional string and a string default. -/
def jsOr (a : Option String) (b : String) : String :=
  match a with
  | none => b
  | some s => if s = "" then b else s

/-- Model of `String.prototype.split` with a one-character separator, on the
character list: keeps empty segments, and splitting the empty string
yields `[[]]`, as in JS. -/
def splitOnChar (sep : Char) : List Char → List (List Char)
  | [] => [[]]
  | c :: cs =>
    if c = sep then [] :: splitOnChar sep cs
    else
      match splitOnChar sep cs with
      | [] => [[c]]
      | w :: ws => (c :: w) :: ws

/-- JS `s.split(sep)` for a one-character separator. -/
def jsSplit (s : String) (sep : Char) : List String :=
  (splitOnChar sep s.data).map (fun cs => String.mk cs)

/-- Decimal digit value of a character, if any. -/
def digitValue? (c : Char) : Option Nat :=
  if '0' ≤ c ∧ c ≤ '9' then some (c.toNat - '0'.toNat) else none

/-- Hexadecimal digit value of a character, if any. -/
def hexValue? (c : Char) : Option Nat :=
  if '0' ≤ c ∧ c ≤ '9' then some (c.toNat - '0'.toNat)
  else if 'a' ≤ c ∧ c ≤ 'f' then some (c.toNat - 'a'.toNat + 10)
  else if 'A' ≤ c ∧ c ≤ 'F' then some (c.toNat - 'A'.toNat + 10)
  else none

/-- Accumulate leading digits, stopping at the first non-digit. -/
def parseDigitsAux (val : Char → Option Nat) (base : Nat) : List Char → Nat → Nat
  | [], acc => acc
  | c :: cs, acc =>
    match val c with
    | some d => parseDigitsAux val base cs (acc * base + d)
    | none => acc

/-- Parse the leading digit run; `none` (JS `NaN`) when the first
character is not a digit. -/
def parseDigits (val : Char → Option Nat) (base : Nat) (cs : List Char) : Option Nat :=
  match cs with
  | [] => none
  | c :: _ =>
    match val c with
    | none => none
    | some _ => some (parseDigitsAux val base cs 0)

/-- JS whitespace characters skipped by `parseInt`. -/
def jsWhitespace (c : Char) : Bool :=
  c = ' ' || c = '\t' || c = '\n' || c = '\r' || c = '\x0b' || c = '\x0c'

/-- Body of `parseInt` after sign handling: a `0x`/`0X` prefix selects base 16,
otherwise base 10. -/
def jsParseIntFrom (cs : List Char) : Option Int :=
  match cs with
  | '0' :: 'x' :: rest => (parseDigits hexValue? 16 rest).map Int.ofNat
  | '0' :: 'X' :: rest => (parseDigits hexValue? 16 rest).map Int.ofNat
  | _ => (parseDigits digitValue? 10 cs).map Int.ofNat

/-- JS `parseInt(s)` (radix unspecified): skip whitespace, optional sign,
then digits; `none` models `NaN`. -/
def jsParseInt (s : String) : Option Int :=
  let cs := s.data.dropWhile jsWhitespace
  match cs with
  | '-' :: rest => (jsParseIntFrom rest).map (fun n => -n)
  | '+' :: rest => jsParseIntFrom rest
  | _ => jsParseIntFrom cs

/-! ## bcrypt model

`bcrypt.hashSync`/`bcrypt.compareSync` are modelled functionally:
comparison succeeds exactly when the hash is the hash of the password. -/

def bcryptHash (password : String) : String := "bcrypt$" ++ password

def bcryptCompare (password hash : String) : Bool := hash = bcryptHash password

/-! ## Data model (`database.js` tables) -/

/-- A row of the `users` table. -/
structure User where
  id : Int
  username : String
  password_hash : String
  created_at : Nat
deriving DecidableEq

/-- The shape returned to callers: `id, username, created_at`, never the
hash (`createUser`'s resolve object, `getUserById`'s SELECT list, and
`verifyUser`'s destructuring all omit `password_hash`). -/
structure PublicUser where
  id : Int
  username : String
  created_at : Nat
deriving DecidableEq

/-- A row of the `notes` table. -/
structure Note where
  id : Int
  user_id : Int
  title : String
  content : String
  tags : String
  created_at : Nat
  updated_at : Nat
deriving DecidableEq

/-- The SQLite database state.  `nextUserId`/`nextNoteId` model the
`AUTOINCREMENT` counters (`this.lastID` of an INSERT). -/
structure DB where
  users : List User
  notes : List Note
  nextUserId : Int
  nextNoteId : Int
deriving DecidableEq

/-- A fresh database, as after `initDatabase` on a new file. -/
def emptyDB : DB := { users := [], notes := [], nextUserId := 1, nextNoteId := 1 }

/-! ## `database.js` user functions -/

/-- Model of `getUserByUsername`: `SELECT * FROM users WHERE username = ?`. -/
def getUserByUsername (db : DB) (username : String) : Option User :=
  db.users.find? (fun u => u.username = username)

/-- Model of `createUser`: hash the password, `INSERT INTO users`; the UNIQUE
constraint on `username` rejects a duplicate (the promise rejects, here
`none`); on success resolves `{id := lastID, username, created_at}`. -/
def createUser (db : DB) (username password : String) (now : Nat) : Option (DB × PublicUser) :=
  if db.users.any (fun u => u.username = username) then none
  else
    let row : User :=
      { id := db.nextUserId, username := username
        password_hash := bcryptHash password, created_at := now }
    some ({ db with users := db.users ++ [row], nextUserId := db.nextUserId + 1 },
      { id := row.id, username := username, created_at := now })

/-- Model of `getUserById`: `SELECT id, username, created_at FROM users WHERE id = ?`. -/
def getUserById (db : DB) (userId : Int) : Option PublicUser :=
  (db.users.find? (fun u => u.id = userId)).map
    (fun u => { id := u.id, username := u.username, created_at := u.created_at })

/-- Model of `verifyUser`: look up by username, compare the bcrypt hash, return the
user without the hash on success. -/
def verifyUser (db : DB) (username password : String) : Option PublicUser :=
  match getUserByUsername db username with
  | none => none
  | some u =>
    if bcryptCompare password u.password_hash then
      some { id := u.id, username := u.username, created_at := u.created_at }
    else none

/-! ## `database.js` notes functions

`noteId : Option Int` models the JS number argument, which is `NaN`
(`none`) when the route's `parseInt` failed; the SQL comparison
`id = ?` then matches no row. -/

/-- Does a note row match `id = ? AND user_id = ?` for the bound values? -/
def noteMatches (noteId : Option Int) (userId : Int) (n : Note) : Bool :=
  some n.id = noteId ∧ n.user_id = userId

/-- Model of `getNoteById`: `SELECT * FROM notes WHERE id = ? AND user_id = ?`. -/
def getNoteById (db : DB) (noteId : Option Int) (userId : Int) : Option Note :=
  db.notes.find? (noteMatches noteId userId)

/-- The comparator of `ORDER BY updated_at DESC`. -/
def updatedDesc (a b : Note) : Prop := b.updated_at ≤ a.updated_at

instance : DecidableRel updatedDesc := fun _ _ => Nat.decLe _ _

instance : IsTotal Note updatedDesc := ⟨fun a b => Nat.le_total b.updated_at a.updated_at⟩

instance : IsTrans Note updatedDesc := ⟨fun _ _ _ h1 h2 => Nat.le_trans h2 h1⟩

/-- Model of `getNotesByUserId`:
`SELECT * FROM notes WHERE user_id = ? ORDER BY updated_at DESC`. -/
def getNotesByUserId (db : DB) (userId : Int) : List Note :=
  List.insertionSort updatedDesc (db.notes.filter (fun n => n.user_id = userId))

/-- Model of `createNote`: `INSERT INTO notes (user_id, title, content, tags)`,
both timestamps defaulting to `CURRENT_TIMESTAMP`, then re-read the row
with `getNoteById(this.lastID, userId)`. -/
def createNote (db : DB) (userId : Int) (title content tags : String) (now : Nat) :
    DB × Option Note :=
  let row : Note :=
    { id := db.nextNoteId, user_id := userId, title := title, content := content
      tags := tags, created_at := now, updated_at := now }
  let db' := { db with notes := db.notes ++ [row], nextNoteId := db.nextNoteId + 1 }
  (db', getNoteById db' (some db.nextNoteId) userId)

/-- Model of `updateNote`: first `getNoteById` (ownership check), abort with
`null` if absent; otherwise `UPDATE notes SET title = ?, content = ?,
tags = ?, updated_at = CURRENT_TIMESTAMP WHERE id = ? AND user_id = ?`
and re-read the row. -/
def updateNote (db : DB) (noteId : Option Int) (userId : Int)
    (title content tags : String) (now : Nat) : DB × Option Note :=
  match getNoteById db noteId userId with
  | none => (db, none)
  | some _ =>
    let notes' := db.notes.map (fun n =>
      if noteMatches noteId userId n then
        { n with title := title, content := content, tags := tags, updated_at := now }
      else n)
    let db' := { db with notes := notes' }
    (db', getNoteById db' noteId userId)

/-- Model of `deleteNote`: first `getNoteById` (ownership check), abort with
`false` if absent; otherwise `DELETE FROM notes WHERE id = ? AND
user_id = ?` and resolve `this.changes > 0`. -/
def deleteNote (db : DB) (noteId : Option Int) (userId : Int) : DB × Bool :=
  match getNoteById db noteId userId with
  | none => (db, false)
  | some _ =>
    let notes' := db.notes.filter (fun n => ! noteMatches noteId userId n)
    ({ db with notes := notes' }, decide (notes'.length < db.notes.length))

/-! ## `server.js`: JWT model and authentication middleware

The `jsonwebtoken` library is modelled at two levels.  For the register
and login routes, a signed token is a structure recording its payload,
the secret it was signed with, and its expiry instant; `Jwt.verify`
succeeds exactly on a matching secret before expiry (a `malformed`
constructor stands for any string that does not decode to a token).  For
the middleware, the wire-level token is the string cut out of the
`Authorization` header, and the middleware is parametric in
`verify : String → Option Payload`, the `jwt.verify(·, JWT_SECRET)`
callback at the current instant. -/

/-- The claims object passed to `jwt.sign`: `{id, username}`. -/
structure Payload where
  id : Int
  username : String
deriving DecidableEq

/-- A token as the `jsonwebtoken` library sees it. -/
inductive SignedToken where
  | signed (payload : Payload) (sig : String) (exp : Nat)
  | malformed (raw : String)
deriving DecidableEq

/-- Model of jwt.sign with the 24h expiry option of server.js. -/
def Jwt.sign (payload : Payload) (secret : String) (now : Nat) : SignedToken :=
  .signed payload secret (now + 24 * 60 * 60)

/-- Model of `jwt.verify(token, secret, cb)`: the callback receives the payload
only when the signature matches and the expiry has not passed. -/
def Jwt.verify (tok : SignedToken) (secret : String) (now : Nat) : Option Payload :=
  match tok with
  | .malformed _ => none
  | .signed p sig exp => if sig = secret ∧ now < exp then some p else none

/-- The process-wide signing secret of `server.js`. -/
def JWT_SECRET : String := "your-secret-key-change-this-in-production"

/-- The middleware line taking the second space-separated segment of the
header (token = authHeader && authHeader.split(..)[1]) followed by the
`if (!token)` guard: `none` exactly when the JS `token` is falsy
(header absent or empty, no second segment, or an empty second segment). -/
def extractBearerToken (authHeader : Option String) : Option String :=
  match authHeader with
  | none => none
  | some h =>
    if h = "" then none
    else
      match (jsSplit h ' ')[1]? with
      | none => none
      | some t => if t = "" then none else some t

/-- Outcome of the `authenticateToken` middleware: either a rejection
response (status, error message) or control passed to the handler with
`req.user` set. -/
inductive AuthResult where
  | reject (status : Nat) (error : String)
  | proceed (user : Payload)
deriving DecidableEq

/-- Model of the `authenticateToken` middleware of `server.js`. -/
def authenticateToken (authHeader : Option String)
    (verify : String → Option Payload) : AuthResult :=
  match extractBearerToken authHeader with
  | none => .reject 401 "Access token required"
  | some token =>
    match verify token with
    | none => .reject 403 "Invalid or expired token"
    | some user => .proceed user

/-! ## `server.js` route handlers -/

/-- Response of a single-note route: status plus either an error message
or the returned note. -/
structure Response where
  status : Nat
  error : Option String
  note : Option Note
deriving DecidableEq

/-- Response of the register/login routes. -/
structure AuthResponse where
  status : Nat
  error : Option String
  token : Option SignedToken
  user : Option PublicUser
deriving DecidableEq

/-- Handler of `POST /api/register`. -/
def registerRoute (db : DB) (username password : Option String) (now : Nat) :
    DB × AuthResponse :=
  if ¬ (jsTruthy username ∧ jsTruthy password) then
    (db, { status := 400, error := some "Username and password are required"
           token := none, user := none })
  else
    let uname := username.getD ""
    let pword := password.getD ""
    if uname.length < 3 then
      (db, { status := 400, error := some "Username must be at least 3 characters"
             token := none, user := none })
    else if pword.length < 6 then
      (db, { status := 400, error := some "Password must be at least 6 characters"
             token := none, user := none })
    else
      match getUserByUsername db uname with
      | some _ =>
        (db, { status := 409, error := some "Username already exists"
               token := none, user := none })
      | none =>
        match createUser db uname pword now with
        | none =>
          (db, { status := 500, error := some "Internal server error"
                 token := none, user := none })
        | some (db', u) =>
          let token := Jwt.sign { id := u.id, username := u.username } JWT_SECRET now
          (db', { status := 201, error := none, token := some token, user := some u })

/-- Handler of `POST /api/login`. -/
def loginRoute (db : DB) (username password : Option String) (now : Nat) :
    DB × AuthResponse :=
  if ¬ (jsTruthy username ∧ jsTruthy password) then
    (db, { status := 400, error := some "Username and password are required"
           token := none, user := none })
  else
    match verifyUser db (username.getD "") (password.getD "") with
    | none =>
      (db, { status := 401, error := some "Invalid username or password"
             token := none, user := none })
    | some u =>
      let token := Jwt.sign { id := u.id, username := u.username } JWT_SECRET now
      (db, { status := 200, error := none, token := some token, user := some u })

/-- Handler of `POST /api/notes` (after the middleware set `req.user`). -/
def postNoteRoute (db : DB) (userId : Int) (title content tags : Option String)
    (now : Nat) : DB × Response :=
  if ¬ (jsTruthy title ∧ jsTruthy content) then
    (db, { status := 400, error := some "Title and content are required", note := none })
  else
    let r := createNote db userId (title.getD "") (content.getD "") (jsOr tags "") now
    (r.1, { status := 201, error := none, note := r.2 })

/-- Handler of `PUT /api/notes/:id`: `parseInt` the path parameter,
validate the body, delegate to `updateNote`, map `null` to 404. -/
def putNoteRoute (db : DB) (userId : Int) (idParam : String)
    (title content tags : Option String) (now : Nat) : DB × Response :=
  let noteId := jsParseInt idParam
  if ¬ (jsTruthy title ∧ jsTruthy content) then
    (db, { status := 400, error := some "Title and content are required", note := none })
  else
    let r := updateNote db noteId userId (title.getD "") (content.getD "") (jsOr tags "") now
    match r.2 with
    | none =>
      (r.1, { status := 404, error := some "Note not found or unauthorized", note := none })
    | some n => (r.1, { status := 200, error := none, note := some n })

/-- Handler of `DELETE /api/notes/:id`. -/
def deleteNoteRoute (db : DB) (userId : Int) (idParam : String) : DB × Response :=
  let noteId := jsParseInt idParam
  let r := deleteNote db noteId userId
  if r.2 then (r.1, { status := 200, error := none, note := none })
  else (r.1, { status := 404, error := some "Note not found or unauthorized", note := none })

/-- Route `PUT /api/notes/:id` with its middleware: the handler runs only when
`authenticateToken` called `next()`. -/
def putNoteProtected (db : DB) (authHeader : Option String)
    (verify : String → Option Payload) (idParam : String)
    (title content tags : Option String) (now : Nat) : DB × Response :=
  match authenticateToken authHeader verify with
  | .reject s e => (db, { status := s, error := some e, note := none })
  | .proceed user => putNoteRoute db user.id idParam title content tags now

/-- Concrete store used by several witnesses: one note, id 1, owned by
user 1. -/
def noteA : Note :=
  { id := 1, user_id := 1, title := "t", content := "c", tags := ""
    created_at := 0, updated_at := 0 }

/-- A database holding exactly `noteA`. -/
def dbOneNote : DB := { users := [], notes := [noteA], nextUserId := 1, nextNoteId := 2 }

/-- The user row inserted by a successful registration. -/
def insertedUser (db : DB) (uname pword : String) (now : Nat) : User :=
  { id := db.nextUserId, username := uname
    password_hash := bcryptHash pword, created_at := now }

/-- The store after a successful registration. -/
def dbAfterRegister (db : DB) (uname pword : String) (now : Nat) : DB :=
  { db with
    users := db.users ++ [insertedUser db uname pword now]
    nextUserId := db.nextUserId + 1 }

/-- The note row inserted by `createNote`. -/
def freshNote (db : DB) (uid : Int) (ti co ta : String) (t0 : Nat) : Note :=
  { id := db.nextNoteId, user_id := uid, title := ti
    content := co, tags := ta, created_at := t0, updated_at := t0 }

/-- The store after `createNote`. -/
def dbAfterCreate (db : DB) (uid : Int) (ti co ta : String) (t0 : Nat) : DB :=
  { db with
    notes := db.notes ++ [freshNote db uid ti co ta t0]
    nextNoteId := db.nextNoteId + 1 }

/-! ## Basic lemmas about the embedded operations -/

theorem getNoteById_eq_none (db : DB) (noteId : Option Int) (userId : Int)
    (h : ∀ m ∈ db.notes, ¬ (some m.id = noteId ∧ m.user_id = userId)) :
    getNoteById db noteId userId = none := by
  rw [getNoteById, List.find?_eq_none]
  intro m hm
  simpa [noteMatches] using h m hm

theorem getNoteById_nan (db : DB) (userId : Int) :
    getNoteById db none userId = none :=
  getNoteById_eq_none db none userId (by intro m _ hc; exact Option.noConfusion hc.1)

theorem updateNote_absent (db : DB) (noteId : Option Int) (userId : Int)
    (ti co ta : String) (now : Nat) (h : getNoteById db noteId userId = none) :
    updateNote db noteId userId ti co ta now = (db, none) := by
  rw [updateNote, h]

theorem deleteNote_absent (db : DB) (noteId : Option Int) (userId : Int)
    (h : getNoteById db noteId userId = none) :
    deleteNote db noteId userId = (db, false) := by
  rw [deleteNote, h]

theorem getNoteById_cross_owner (db : DB) (n : Note) (B : Int)
    (huniq : (db.notes.map Note.id).Nodup) (hmem : n ∈ db.notes)
    (hB : n.user_id ≠ B) :
    getNoteById db (some n.id) B = none := by
  apply getNoteById_eq_none
  intro m hm hc
  have hid : m.id = n.id := Option.some.inj hc.1
  have hmn : m = n := List.inj_on_of_nodup_map huniq hm hmem hid
  exact hB (hmn ▸ hc.2)

/-- C1: Ownership isolation: for a note owned by user `A`, any other user
`B` gets `none` from `getOwned`, `(db, none)` from `update`, and
`(db, false)` from `delete` on that note's id — exactly the outcomes for
an id that does not exist at all, so `B` can neither affect `A`'s note
nor observe its existence. -/
theorem ownership_isolation (db : DB) (n : Note) (A B : Int)
    (ti co ta : String) (now : Nat)
    (huniq : (db.notes.map Note.id).Nodup)
    (hmem : n ∈ db.notes) (hown : n.user_id = A) (hBA : B ≠ A) :
    getNoteById db (some n.id) B = none ∧
    updateNote db (some n.id) B ti co ta now = (db, none) ∧
    deleteNote db (some n.id) B = (db, false) ∧
    ∀ j : Int, (∀ m ∈ db.notes, m.id ≠ j) →
      getNoteById db (some j) B = none ∧
      updateNote db (some j) B ti co ta now = (db, none) ∧
      deleteNote db (some j) B = (db, false) := by
  have hcross : getNoteById db (some n.id) B = none :=
    getNoteById_cross_owner db n B huniq hmem (by rw [hown]; exact fun h => hBA h.symm)
  refine ⟨hcross, updateNote_absent _ _ _ _ _ _ _ hcross, deleteNote_absent _ _ _ hcross, ?_⟩
  intro j hj
  have hnone : getNoteById db (some j) B = none :=
    getNoteById_eq_none db (some j) B
      (fun m hm hc => hj m hm (Option.some.inj hc.1))
  exact ⟨hnone, updateNote_absent _ _ _ _ _ _ _ hnone, deleteNote_absent _ _ _ hnone⟩

/-- Witness for C1, at a one-note store with owner 1 and requester 2. -/
theorem ownership_isolation_witness :
    getNoteById dbOneNote (some 1) 2 = none ∧
    updateNote dbOneNote (some 1) 2 "x" "y" "z" 5 = (dbOneNote, none) ∧
    deleteNote dbOneNote (some 1) 2 = (dbOneNote, false) := by
  have h := ownership_isolation dbOneNote noteA 1 2 "x" "y" "z" 5
    (by decide) (by decide) (by decide) (by decide)
  exact ⟨h.1, h.2.1, h.2.2.1⟩

/-- C7: `getNotesByUserId` returns a sequence sorted descending by
`updated_at` whose members are exactly the notes of the given owner
(a permutation of the owner's rows). -/
theorem listing_order (db : DB) (uid : Int) :
    List.Sorted updatedDesc (getNotesByUserId db uid) ∧
    List.Perm (getNotesByUserId db uid) (db.notes.filter (fun n => n.user_id = uid)) ∧
    ∀ n : Note, n ∈ getNotesByUserId db uid ↔ (n ∈ db.notes ∧ n.user_id = uid) := by
  refine ⟨List.sorted_insertionSort _ _, List.perm_insertionSort _ _, ?_⟩
  intro n
  rw [getNotesByUserId, (List.perm_insertionSort _ _).mem_iff, List.mem_filter]
  simp

/-- Removing the elements satisfying `p` from a list that contains one
strictly shortens it. -/
theorem length_filter_not_lt {α} (p : α → Bool) (l : List α) (a : α)
    (ha : a ∈ l) (hpa : p a = true) :
    (l.filter (fun x => !(p x))).length < l.length := by
  induction l with
  | nil => cases ha
  | cons b t ih =>
    rcases List.mem_cons.mp ha with hb | ht
    · subst hb
      have hle : (t.filter (fun x => !(p x))).length ≤ t.length :=
        List.length_filter_le _ _
      simp only [List.filter_cons, hpa, Bool.not_true, List.length_cons]
      simp only [Bool.false_eq_true, if_false]
      omega
    · have h := ih ht
      cases hpb : p b
      · simp only [List.filter_cons, hpb, Bool.not_false, List.length_cons]
        simp only [if_true]
        simp only [List.length_cons]
        omega
      · simp only [List.filter_cons, hpb, Bool.not_true, List.length_cons]
        simp only [Bool.false_eq_true, if_false]
        omega

/-- C8: first delete of an owned note returns `true` and removes the
row; repeating the same delete returns `false` and leaves the store as
it was; in general delete returns `true` exactly when a row matching
both the id and the owner was present (and removed). -/
theorem delete_idempotent (db : DB) (n : Note) (uid : Int)
    (hmem : n ∈ db.notes) (hown : n.user_id = uid) :
    (deleteNote db (some n.id) uid).2 = true ∧
    n ∉ (deleteNote db (some n.id) uid).1.notes ∧
    deleteNote (deleteNote db (some n.id) uid).1 (some n.id) uid =
      ((deleteNote db (some n.id) uid).1, false) ∧
    ∀ j : Int, ((deleteNote db (some j) uid).2 = true ↔
      ∃ m ∈ db.notes, m.id = j ∧ m.user_id = uid) := by
  have hpn : noteMatches (some n.id) uid n = true := by simp [noteMatches, hown]
  have hsome : (db.notes.find? (noteMatches (some n.id) uid)).isSome := by
    rw [List.find?_isSome]
    exact ⟨n, hmem, hpn⟩
  obtain ⟨m0, hm0⟩ := Option.isSome_iff_exists.mp hsome
  have hget : getNoteById db (some n.id) uid = some m0 := hm0
  have hdel : deleteNote db (some n.id) uid =
      ({ db with notes := db.notes.filter (fun x => ! noteMatches (some n.id) uid x) },
        decide ((db.notes.filter (fun x => ! noteMatches (some n.id) uid x)).length
          < db.notes.length)) := by
    rw [deleteNote, hget]
  have hlen : (db.notes.filter (fun x => ! noteMatches (some n.id) uid x)).length
      < db.notes.length := length_filter_not_lt _ _ n hmem hpn
  have hfst : (deleteNote db (some n.id) uid).1.notes =
      db.notes.filter (fun x => ! noteMatches (some n.id) uid x) := by rw [hdel]
  refine ⟨by rw [hdel]; simpa using hlen, ?_, ?_, ?_⟩
  · rw [hfst]
    intro hmem'
    have hkeep := (List.mem_filter.mp hmem').2
    rw [hpn] at hkeep
    cases hkeep
  · have hnone : getNoteById (deleteNote db (some n.id) uid).1 (some n.id) uid = none := by
      rw [getNoteById, hfst, List.find?_eq_none]
      intro x hx
      have hkeep := (List.mem_filter.mp hx).2
      simp only [Bool.not_eq_eq_eq_not, Bool.not_true] at hkeep
      simp [hkeep]
    exact deleteNote_absent _ _ _ hnone
  · intro j
    constructor
    · intro htrue
      rcases hg : getNoteById db (some j) uid with _ | m
      · rw [deleteNote_absent _ _ _ hg] at htrue
        cases htrue
      · have hmm := List.mem_of_find?_eq_some hg
        have hpm := List.find?_some hg
        rw [noteMatches] at hpm
        simp only [decide_eq_true_eq] at hpm
        exact ⟨m, hmm, Option.some.inj hpm.1, hpm.2⟩
    · rintro ⟨m, hmm, hmid, hmuid⟩
      have hpm : noteMatches (some j) uid m = true := by
        simp [noteMatches, hmid, hmuid]
      have hsome2 : (db.notes.find? (noteMatches (some j) uid)).isSome := by
        rw [List.find?_isSome]; exact ⟨m, hmm, hpm⟩
      obtain ⟨m1, hm1⟩ := Option.isSome_iff_exists.mp hsome2
      have hget2 : getNoteById db (some j) uid = some m1 := hm1
      rw [deleteNote, hget2]
      simpa using length_filter_not_lt _ _ m hmm hpm

/-- Witness for C8, deleting note 1 of `dbOneNote` twice as its owner. -/
theorem delete_idempotent_witness :
    (deleteNote dbOneNote (some 1) 1).2 = true ∧
    deleteNote (deleteNote dbOneNote (some 1) 1).1 (some 1) 1 =
      ((deleteNote dbOneNote (some 1) 1).1, false) := by
  have h := delete_idempotent dbOneNote noteA 1 (by decide) (by decide)
  exact ⟨h.1, h.2.2.1⟩

/-- C2: the Request Gate answers 401 exactly when no token could be cut
out of the `Authorization` header (and then no handler, hence no store
access, runs: the state comes back unchanged), answers 403 exactly when
a token was extracted but verification failed, and never swaps the two
status codes. -/
theorem auth_status_asymmetry (authHeader : Option String)
    (verify : String → Option Payload) (db : DB) (idParam : String)
    (title content tags : Option String) (now : Nat) :
    (extractBearerToken authHeader = none →
       authenticateToken authHeader verify = .reject 401 "Access token required" ∧
       putNoteProtected db authHeader verify idParam title content tags now =
         (db, { status := 401, error := some "Access token required", note := none })) ∧
    (∀ t, extractBearerToken authHeader = some t → verify t = none →
       authenticateToken authHeader verify = .reject 403 "Invalid or expired token") ∧
    (∀ s msg, authenticateToken authHeader verify = .reject s msg →
       ((s = 401 ↔ extractBearerToken authHeader = none) ∧
        (s = 403 ↔ ∃ t, extractBearerToken authHeader = some t ∧ verify t = none))) := by
  refine ⟨?_, ?_, ?_⟩
  · intro h
    constructor
    · rw [authenticateToken, h]
    · rw [putNoteProtected, authenticateToken, h]
  · intro t ht hv
    simp only [authenticateToken, ht, hv]
  · intro s msg hr
    rcases he : extractBearerToken authHeader with _ | t
    · simp only [authenticateToken, he] at hr
      cases hr
      constructor
      · simp
      · simp [he]
    · rcases hv : verify t with _ | u
      · simp only [authenticateToken, he, hv] at hr
        cases hr
        constructor
        · simp [he]
        · simp only [true_iff]
          exact ⟨t, rfl, hv⟩
      · simp only [authenticateToken, he, hv] at hr
        cases hr

/-- Witness for C2: a missing header yields 401 untouched, a present but
unverifiable token yields 403. -/
theorem auth_status_asymmetry_witness :
    authenticateToken none (fun _ => none) = .reject 401 "Access token required" ∧
    putNoteProtected emptyDB none (fun _ => none) "1" none none none 0 =
      (emptyDB, { status := 401, error := some "Access token required", note := none }) ∧
    authenticateToken (some "Bearer bad") (fun _ => none) =
      .reject 403 "Invalid or expired token" := by
  have h1 := (auth_status_asymmetry none (fun _ => none) emptyDB "1" none none none 0).1 rfl
  have h2 := (auth_status_asymmetry (some "Bearer bad") (fun _ => none) emptyDB "1"
    none none none 0).2.1 "bad" (by decide) rfl
  exact ⟨h1.1, h1.2, h2⟩

theorem splitOnChar_no_sep (sep : Char) (l : List Char) (h : sep ∉ l) :
    splitOnChar sep l = [l] := by
  induction l with
  | nil => rfl
  | cons c cs ih =>
    have hc : ¬ c = sep := fun hcs => h (hcs ▸ List.mem_cons_self c cs)
    have hcs : sep ∉ cs := fun hm => h (List.mem_cons_of_mem _ hm)
    simp [splitOnChar, hc, ih hcs]

theorem splitOnChar_append_sep (sep : Char) (l1 l2 : List Char) (h : sep ∉ l1) :
    splitOnChar sep (l1 ++ sep :: l2) = l1 :: splitOnChar sep l2 := by
  induction l1 with
  | nil => simp [splitOnChar]
  | cons c cs ih =>
    have hc : ¬ c = sep := fun hcs => h (hcs ▸ List.mem_cons_self c cs)
    have hcs : sep ∉ cs := fun hm => h (List.mem_cons_of_mem _ hm)
    rw [List.cons_append]
    simp [splitOnChar, hc, ih hcs]

theorem jsSplit_scheme (s1 rest : String) (h : ' ' ∉ s1.data) :
    jsSplit (s1 ++ " " ++ rest) ' ' = s1 :: jsSplit rest ' ' := by
  rw [jsSplit, jsSplit]
  have hdata : (s1 ++ " " ++ rest).data = s1.data ++ ' ' :: rest.data := by
    rw [String.data_append, String.data_append]
    simp
  rw [hdata, splitOnChar_append_sep ' ' s1.data rest.data h]
  rfl

theorem append_scheme_ne_empty (s1 rest : String) : s1 ++ " " ++ rest ≠ "" := by
  intro h0
  have hd : (s1 ++ " " ++ rest).data = ([] : List Char) := by rw [h0]
  rw [String.data_append, String.data_append] at hd
  simp at hd

theorem extractBearerToken_scheme (s rest : String) (h : ' ' ∉ s.data) :
    extractBearerToken (some (s ++ " " ++ rest)) =
      match (jsSplit rest ' ')[0]? with
      | none => none
      | some t => if t = "" then none else some t := by
  simp only [extractBearerToken, if_neg (append_scheme_ne_empty s rest),
    jsSplit_scheme s rest h, List.getElem?_cons_succ]

/-- C9: the Request Gate takes the second space-separated segment of the
header and never inspects the scheme word: a header with no second
segment (e.g. a bare token) is answered 401; two headers differing only
in their (space-free) scheme word are treated identically; and any
scheme word followed by a token the verifier accepts is let through. -/
theorem scheme_not_inspected (verify : String → Option Payload) :
    (∀ h : String, (jsSplit h ' ')[1]? = none →
       authenticateToken (some h) verify = .reject 401 "Access token required") ∧
    (∀ s1 s2 rest : String, ' ' ∉ s1.data → ' ' ∉ s2.data →
       authenticateToken (some (s1 ++ " " ++ rest)) verify =
         authenticateToken (some (s2 ++ " " ++ rest)) verify) ∧
    (∀ scheme tok : String, ∀ p : Payload, ' ' ∉ scheme.data → ' ' ∉ tok.data →
       tok ≠ "" → verify tok = some p →
       authenticateToken (some (scheme ++ " " ++ tok)) verify = .proceed p) := by
  refine ⟨?_, ?_, ?_⟩
  · intro h hsecond
    have hex : extractBearerToken (some h) = none := by
      simp only [extractBearerToken]
      by_cases h0 : h = ""
      · rw [if_pos h0]
      · rw [if_neg h0, hsecond]
    rw [authenticateToken, hex]
  · intro s1 s2 rest h1 h2
    rw [authenticateToken, authenticateToken,
      extractBearerToken_scheme s1 rest h1, extractBearerToken_scheme s2 rest h2]
  · intro scheme tok p hs htok hne hv
    have hone : jsSplit tok ' ' = [tok] := by
      rw [jsSplit, splitOnChar_no_sep ' ' tok.data htok]
      rfl
    have hex : extractBearerToken (some (scheme ++ " " ++ tok)) = some tok := by
      rw [extractBearerToken_scheme scheme tok hs, hone]
      simp [hne]
    simp only [authenticateToken, hex, hv]

/-- Witness for C9: a bare token without a scheme word is rejected 401,
while `Basic <token>` is accepted exactly like `Bearer <token>`. -/
theorem scheme_not_inspected_witness :
    authenticateToken (some "sometoken") (fun t => if t = "tok" then some ⟨1, "alice"⟩ else none) =
      .reject 401 "Access token required" ∧
    authenticateToken (some ("Basic" ++ " " ++ "tok"))
        (fun t => if t = "tok" then some ⟨1, "alice"⟩ else none) = .proceed ⟨1, "alice"⟩ ∧
    authenticateToken (some ("Bearer" ++ " " ++ "tok"))
        (fun t => if t = "tok" then some ⟨1, "alice"⟩ else none) =
      authenticateToken (some ("Basic" ++ " " ++ "tok"))
        (fun t => if t = "tok" then some ⟨1, "alice"⟩ else none) := by
  have h := scheme_not_inspected (fun t => if t = "tok" then some ⟨1, "alice"⟩ else none)
  refine ⟨h.1 "sometoken" (by decide), ?_, ?_⟩
  · exact h.2.2 "Basic" "tok" ⟨1, "alice"⟩ (by decide) (by decide) (by decide) (by decide)
  · exact h.2.1 "Bearer" "Basic" "tok" (by decide) (by decide)

/-- C10: when `parseInt` of the `:id` path parameter yields `NaN`, the
PUT and DELETE note routes (with a valid identity and well-formed body)
answer the ordinary 404 "Note not found or unauthorized", leave the
store untouched, and raise nothing else. -/
theorem nan_id_not_found (db : DB) (uid : Int) (idParam : String)
    (title content tags : Option String) (now : Nat)
    (hnan : jsParseInt idParam = none)
    (ht : jsTruthy title = true) (hc : jsTruthy content = true) :
    putNoteRoute db uid idParam title content tags now =
      (db, { status := 404, error := some "Note not found or unauthorized", note := none }) ∧
    deleteNoteRoute db uid idParam =
      (db, { status := 404, error := some "Note not found or unauthorized", note := none }) := by
  have hupd := updateNote_absent db none uid (title.getD "") (content.getD "")
    (jsOr tags "") now (getNoteById_nan db uid)
  have hdel := deleteNote_absent db none uid (getNoteById_nan db uid)
  constructor
  · simp only [putNoteRoute, hnan, ht, hc, hupd]
    simp
  · simp only [deleteNoteRoute, hnan, hdel]
    simp

/-- Witness for C10, at the non-numeric path parameter "abc". -/
theorem nan_id_not_found_witness :
    putNoteRoute emptyDB 1 "abc" (some "t") (some "c") none 7 =
      (emptyDB, { status := 404, error := some "Note not found or unauthorized", note := none }) ∧
    deleteNoteRoute emptyDB 1 "abc" =
      (emptyDB, { status := 404, error := some "Note not found or unauthorized", note := none }) :=
  nan_id_not_found emptyDB 1 "abc" (some "t") (some "c") none 7
    (by decide) (by decide) (by decide)

/-- C6 counterexample: a create-note request missing only the title gets
exactly the same 400 response — same fixed message — as one missing only
the content, so the message does not single out the missing field; the
same holds on the update route. -/
theorem missing_field_message_counterexample :
    (postNoteRoute emptyDB 1 none (some "body") none 0).2 =
      (postNoteRoute emptyDB 1 (some "head") none none 0).2 ∧
    (postNoteRoute emptyDB 1 none (some "body") none 0).2.error =
      some "Title and content are required" ∧
    (putNoteRoute emptyDB 1 "1" none (some "body") none 0).2 =
      (putNoteRoute emptyDB 1 "1" (some "head") none none 0).2 := by
  refine ⟨by decide, by decide, by decide⟩

/-- C6 amended: a create-note or update-note request missing a required
field is answered 400 with the one fixed message naming both required
fields, "Title and content are required", whichever field is missing. -/
theorem missing_field_fixed_message (db : DB) (uid : Int) (idParam : String)
    (title content tags : Option String) (now : Nat)
    (hmiss : jsTruthy title = false ∨ jsTruthy content = false) :
    postNoteRoute db uid title content tags now =
      (db, { status := 400, error := some "Title and content are required", note := none }) ∧
    putNoteRoute db uid idParam title content tags now =
      (db, { status := 400, error := some "Title and content are required", note := none }) := by
  have hcond : ¬ (jsTruthy title = true ∧ jsTruthy content = true) := by
    rcases hmiss with h | h <;> simp [h]
  constructor
  · rw [postNoteRoute, if_pos hcond]
  · simp only [putNoteRoute]
    rw [if_pos hcond]

/-- Witness for the amended C6, missing only the title. -/
theorem missing_field_fixed_message_witness :
    postNoteRoute emptyDB 1 none (some "c") none 0 =
      (emptyDB, { status := 400, error := some "Title and content are required", note := none }) ∧
    putNoteRoute emptyDB 1 "1" none (some "c") none 0 =
      (emptyDB, { status := 400, error := some "Title and content are required", note := none }) :=
  missing_field_fixed_message emptyDB 1 "1" none (some "c") none 0 (Or.inl rfl)

theorem jsTruthy_some {s : String} (h : s ≠ "") : jsTruthy (some s) = true := by
  simp [jsTruthy, h]

theorem ne_empty_of_len {s : String} {k : Nat} (hk : 0 < k) (h : k ≤ s.length) :
    s ≠ "" := by
  intro h0
  rw [h0] at h
  simp at h
  omega

/-- A registration with valid fresh credentials inserts exactly one row
and answers 201 with a signed token for the new id. -/
theorem registerRoute_success (db : DB) (uname pword : String) (now : Nat)
    (hu : 3 ≤ uname.length) (hp : 6 ≤ pword.length)
    (hfresh : getUserByUsername db uname = none) :
    registerRoute db (some uname) (some pword) now =
      (dbAfterRegister db uname pword now,
       { status := 201
         error := none
         token := some (Jwt.sign { id := db.nextUserId, username := uname } JWT_SECRET now)
         user := some { id := db.nextUserId, username := uname, created_at := now } }) := by
  have ht1 := jsTruthy_some (ne_empty_of_len (by omega) hu)
  have ht2 := jsTruthy_some (ne_empty_of_len (by omega) hp)
  have hany : db.users.any (fun u => u.username = uname) = false := by
    rw [List.any_eq_false]
    intro u hu'
    simpa using List.find?_eq_none.mp hfresh u hu'
  simp only [registerRoute, ht1, ht2, Option.getD_some, hfresh]
  rw [if_neg (by simp)]
  rw [if_neg (by omega), if_neg (by omega)]
  simp only [createUser, hany]
  rw [if_neg (by simp)]
  rfl

/-- A registration whose username is already stored is answered 409 with
the store unchanged. -/
theorem registerRoute_conflict (db : DB) (uname pword : String) (now : Nat) (u : User)
    (hu : 3 ≤ uname.length) (hp : 6 ≤ pword.length)
    (hdup : getUserByUsername db uname = some u) :
    registerRoute db (some uname) (some pword) now =
      (db, { status := 409, error := some "Username already exists",
             token := none, user := none }) := by
  have ht1 := jsTruthy_some (ne_empty_of_len (by omega) hu)
  have ht2 := jsTruthy_some (ne_empty_of_len (by omega) hp)
  simp only [registerRoute, ht1, ht2, Option.getD_some, hdup]
  rw [if_neg (by simp)]
  rw [if_neg (by omega), if_neg (by omega)]

/-- After a successful registration, the new row is found by username. -/
theorem getUserByUsername_after_insert (db : DB) (uname pword : String) (now : Nat)
    (hfresh : getUserByUsername db uname = none) :
    getUserByUsername (dbAfterRegister db uname pword now) uname =
      some (insertedUser db uname pword now) := by
  rw [getUserByUsername] at hfresh ⊢
  rw [dbAfterRegister]
  simp only [List.find?_append, hfresh, Option.none_or]
  rw [List.find?_cons_of_pos _ (by simp [insertedUser])]

/-- C4: registering the same username twice yields 409 on the second
call, and the rejected call leaves the whole store exactly as the first
call left it — no partial user row is created. -/
theorem duplicate_registration (db : DB) (uname pw1 pw2 : String) (t1 t2 : Nat)
    (hu : 3 ≤ uname.length) (h1 : 6 ≤ pw1.length) (h2 : 6 ≤ pw2.length)
    (hfresh : getUserByUsername db uname = none) :
    (registerRoute (registerRoute db (some uname) (some pw1) t1).1
        (some uname) (some pw2) t2).2 =
      { status := 409, error := some "Username already exists"
        token := none, user := none } ∧
    (registerRoute (registerRoute db (some uname) (some pw1) t1).1
        (some uname) (some pw2) t2).1 =
      (registerRoute db (some uname) (some pw1) t1).1 ∧
    (registerRoute db (some uname) (some pw1) t1).2.status = 201 := by
  have hr1 := registerRoute_success db uname pw1 t1 hu h1 hfresh
  have hfound := getUserByUsername_after_insert db uname pw1 t1 hfresh
  have hr2 := registerRoute_conflict (dbAfterRegister db uname pw1 t1) uname pw2 t2
    (insertedUser db uname pw1 t1) hu h2 hfound
  rw [hr1]
  exact ⟨by rw [hr2], by rw [hr2], rfl⟩

/-- Witness for C4: registering "alice" twice on a fresh store. -/
theorem duplicate_registration_witness :
    (registerRoute (registerRoute emptyDB (some "alice") (some "secret1") 1).1
        (some "alice") (some "secret2") 2).2 =
      { status := 409, error := some "Username already exists"
        token := none, user := none } ∧
    (registerRoute (registerRoute emptyDB (some "alice") (some "secret1") 1).1
        (some "alice") (some "secret2") 2).1 =
      (registerRoute emptyDB (some "alice") (some "secret1") 1).1 := by
  have h := duplicate_registration emptyDB "alice" "secret1" "secret2" 1 2
    (by decide) (by decide) (by decide) rfl
  exact ⟨h.1, h.2.1⟩

/-- After a successful registration, logging in with the same
credentials succeeds with the same public user and a fresh token. -/
theorem loginRoute_after_register (db : DB) (uname pword : String) (t1 t2 : Nat)
    (hu : 3 ≤ uname.length) (hp : 6 ≤ pword.length)
    (hfresh : getUserByUsername db uname = none) :
    loginRoute (dbAfterRegister db uname pword t1) (some uname) (some pword) t2 =
      (dbAfterRegister db uname pword t1,
       { status := 200
         error := none
         token := some (Jwt.sign { id := db.nextUserId, username := uname } JWT_SECRET t2)
         user := some { id := db.nextUserId, username := uname, created_at := t1 } }) := by
  have ht1 := jsTruthy_some (ne_empty_of_len (by omega) hu)
  have ht2 := jsTruthy_some (ne_empty_of_len (by omega) hp)
  have hfound := getUserByUsername_after_insert db uname pword t1 hfresh
  have hver : verifyUser (dbAfterRegister db uname pword t1) uname pword =
      some { id := db.nextUserId, username := uname, created_at := t1 } := by
    simp only [verifyUser, hfound]
    rw [if_pos (by simp [insertedUser, bcryptCompare])]
    rfl
  simp only [loginRoute, ht1, ht2, Option.getD_some, hver]
  rw [if_neg (by simp)]

/-- C3: a registration with valid fresh credentials answers 201 with a
token, a subsequent login with the same credentials answers 200 with a
token against the unchanged store, and both tokens verify under the
server secret (before their expiry) to the `{id, username}` payload of
the user that registration created. -/
theorem register_login_roundtrip (db : DB) (uname pword : String) (t1 t2 tv : Nat)
    (hu : 3 ≤ uname.length) (hp : 6 ≤ pword.length)
    (hfresh : getUserByUsername db uname = none)
    (hv1 : tv < t1 + 24 * 60 * 60) (hv2 : tv < t2 + 24 * 60 * 60) :
    ∃ (db' : DB) (u : PublicUser) (tok1 tok2 : SignedToken),
      registerRoute db (some uname) (some pword) t1 =
        (db', { status := 201, error := none, token := some tok1, user := some u }) ∧
      loginRoute db' (some uname) (some pword) t2 =
        (db', { status := 200, error := none, token := some tok2, user := some u }) ∧
      Jwt.verify tok1 JWT_SECRET tv = some { id := u.id, username := u.username } ∧
      Jwt.verify tok2 JWT_SECRET tv = some { id := u.id, username := u.username } := by
  refine ⟨dbAfterRegister db uname pword t1,
    { id := db.nextUserId, username := uname, created_at := t1 },
    Jwt.sign { id := db.nextUserId, username := uname } JWT_SECRET t1,
    Jwt.sign { id := db.nextUserId, username := uname } JWT_SECRET t2,
    registerRoute_success db uname pword t1 hu hp hfresh,
    loginRoute_after_register db uname pword t1 t2 hu hp hfresh, ?_, ?_⟩
  · rw [Jwt.sign, Jwt.verify, if_pos ⟨rfl, hv1⟩]
  · rw [Jwt.sign, Jwt.verify, if_pos ⟨rfl, hv2⟩]

/-- Witness for C3: "alice"/"secret1" on a fresh store, verified before
expiry. -/
theorem register_login_roundtrip_witness :
    (registerRoute emptyDB (some "alice") (some "secret1") 10).2.status = 201 ∧
    (loginRoute (registerRoute emptyDB (some "alice") (some "secret1") 10).1
        (some "alice") (some "secret1") 20).2.status = 200 := by
  obtain ⟨db', u, tok1, tok2, h1, h2, h3, h4⟩ :=
    register_login_roundtrip emptyDB "alice" "secret1" 10 20 30
      (by decide) (by decide) rfl (by omega) (by omega)
  refine ⟨by rw [h1], ?_⟩
  have hfst : (registerRoute emptyDB (some "alice") (some "secret1") 10).1 = db' := by
    rw [h1]
  rw [hfst, h2]

theorem find?_map_ite {α} (p : α → Bool) (g : α → α)
    (hg : ∀ a, p a = true → p (g a) = true) :
    ∀ l : List α, (l.map (fun a => if p a then g a else a)).find? p = (l.find? p).map g := by
  intro l
  induction l with
  | nil => rfl
  | cons a t ih =>
    cases hpa : p a
    · have hite : (if p a = true then g a else a) = a := if_neg (by simp [hpa])
      rw [List.map_cons, hite, List.find?_cons_of_neg _ (by simp [hpa]),
        List.find?_cons_of_neg _ (by simp [hpa]), ih]
    · have hite : (if p a = true then g a else a) = g a := if_pos hpa
      rw [List.map_cons, hite, List.find?_cons_of_pos _ (hg a hpa),
        List.find?_cons_of_pos _ hpa]
      rfl

/-- Under unique ids, the row found for `(n.id, uid)` is `n` itself. -/
theorem find?_unique_match (db : DB) (n : Note) (uid : Int)
    (huniq : (db.notes.map Note.id).Nodup) (hmem : n ∈ db.notes)
    (hown : n.user_id = uid) :
    db.notes.find? (noteMatches (some n.id) uid) = some n := by
  have hpn : noteMatches (some n.id) uid n = true := by simp [noteMatches, hown]
  have hsome : (db.notes.find? (noteMatches (some n.id) uid)).isSome := by
    rw [List.find?_isSome]
    exact ⟨n, hmem, hpn⟩
  obtain ⟨m, hm⟩ := Option.isSome_iff_exists.mp hsome
  have hmmem := List.mem_of_find?_eq_some hm
  have hpm := List.find?_some hm
  simp only [noteMatches, Option.some.injEq, decide_eq_true_eq] at hpm
  have hmn : m = n := List.inj_on_of_nodup_map huniq hmmem hmem hpm.1
  rw [hm, hmn]

/-- When the ownership pre-check finds a row, `updateNote` rewrites the
matching rows in place and returns the refreshed row it re-reads. -/
theorem updateNote_found (db : DB) (n : Note) (nid uid : Int)
    (ti co ta : String) (now : Nat)
    (hfind : db.notes.find? (noteMatches (some nid) uid) = some n) :
    (updateNote db (some nid) uid ti co ta now).2 =
      some { n with title := ti, content := co, tags := ta, updated_at := now } := by
  have hget : getNoteById db (some nid) uid = some n := hfind
  have hg : ∀ a, noteMatches (some nid) uid a = true →
      noteMatches (some nid) uid
        { a with title := ti, content := co, tags := ta, updated_at := now } = true := by
    intro a ha
    simpa [noteMatches] using ha
  simp only [updateNote, hget, getNoteById]
  rw [find?_map_ite _ _ hg, hfind]
  rfl

/-- The row `createNote` inserts and re-reads, when all existing ids are
below the AUTOINCREMENT counter. -/
theorem createNote_fresh (db : DB) (uid : Int) (ti co ta : String) (t0 : Nat)
    (hids : ∀ m ∈ db.notes, m.id < db.nextNoteId) :
    createNote db uid ti co ta t0 =
      (dbAfterCreate db uid ti co ta t0, some (freshNote db uid ti co ta t0)) := by
  have hnone : db.notes.find? (noteMatches (some db.nextNoteId) uid) = none := by
    rw [List.find?_eq_none]
    intro m hm
    have := hids m hm
    simp only [noteMatches, Option.some.injEq, decide_eq_true_eq, not_and]
    intro hid
    omega
  simp only [createNote, getNoteById, dbAfterCreate, freshNote,
    List.find?_append, hnone, Option.none_or]
  rw [List.find?_cons_of_pos _ (by simp [noteMatches])]

/-- C5: updating an owned note overwrites title, content and tags and
refreshes `updated_at` to the current instant while preserving `id`,
owner and `created_at`; a freshly created note has
`created_at = updated_at`; an update at a strictly later instant leaves
`updated_at` strictly above the preserved `created_at`; and when the
ownership lookup fails first, update returns `none` and changes
nothing. -/
theorem update_frame (db : DB) (uid : Int) (ti co ta ti2 co2 ta2 : String) (t0 t1 : Nat) :
    (∀ nid : Option Int, getNoteById db nid uid = none →
       updateNote db nid uid ti co ta t0 = (db, none)) ∧
    (∀ n : Note, (db.notes.map Note.id).Nodup → n ∈ db.notes → n.user_id = uid →
       (updateNote db (some n.id) uid ti co ta t1).2 =
         some { n with title := ti, content := co, tags := ta, updated_at := t1 }) ∧
    ((∀ m ∈ db.notes, m.id < db.nextNoteId) → t0 < t1 →
       ∃ m : Note, (createNote db uid ti co ta t0).2 = some m ∧
         m.created_at = t0 ∧ m.updated_at = t0 ∧
         ∃ m2 : Note,
           (updateNote (createNote db uid ti co ta t0).1 (some m.id) uid ti2 co2 ta2 t1).2 =
             some m2 ∧
           m2.created_at = m.created_at ∧ m2.updated_at = t1 ∧
           m.created_at < m2.updated_at ∧ m2.id = m.id ∧ m2.user_id = m.user_id) := by
  refine ⟨?_, ?_, ?_⟩
  · intro nid h
    exact updateNote_absent db nid uid ti co ta t0 h
  · intro n huniq hmem hown
    exact updateNote_found db n n.id uid ti co ta t1
      (find?_unique_match db n uid huniq hmem hown)
  · intro hids hlt
    have hcr := createNote_fresh db uid ti co ta t0 hids
    refine ⟨freshNote db uid ti co ta t0, by rw [hcr], rfl, rfl, ?_⟩
    have hnone : db.notes.find? (noteMatches (some db.nextNoteId) uid) = none := by
      rw [List.find?_eq_none]
      intro m hm
      have := hids m hm
      simp only [noteMatches, Option.some.injEq, decide_eq_true_eq, not_and]
      intro hid
      omega
    have hfind : (dbAfterCreate db uid ti co ta t0).notes.find?
        (noteMatches (some (freshNote db uid ti co ta t0).id) uid) =
        some (freshNote db uid ti co ta t0) := by
      simp only [dbAfterCreate, freshNote, List.find?_append, hnone, Option.none_or]
      rw [List.find?_cons_of_pos _ (by simp [noteMatches])]
    have hupd := updateNote_found (dbAfterCreate db uid ti co ta t0)
      (freshNote db uid ti co ta t0) (freshNote db uid ti co ta t0).id uid
      ti2 co2 ta2 t1 hfind
    have hfst : (createNote db uid ti co ta t0).1 = dbAfterCreate db uid ti co ta t0 := by
      rw [hcr]
    refine ⟨{ freshNote db uid ti co ta t0 with
      title := ti2, content := co2, tags := ta2, updated_at := t1 }, ?_, rfl, rfl, ?_, rfl, rfl⟩
    · rw [hfst]
      exact hupd
    · exact hlt

/-- Witness for C5: the absent case on an empty store, a concrete owned
update, and the create-then-update timestamp facts. -/
theorem update_frame_witness :
    updateNote emptyDB (some 1) 1 "t" "c" "" 3 = (emptyDB, none) ∧
    (createNote emptyDB 1 "t" "c" "" 3).2.isSome = true ∧
    (updateNote dbOneNote (some noteA.id) 1 "t" "c" "" 5).2 =
      some { noteA with title := "t", content := "c", tags := "", updated_at := 5 } := by
  have h := update_frame emptyDB 1 "t" "c" "" "t2" "c2" "g" 3 5
  have h2 := update_frame dbOneNote 1 "t" "c" "" "t2" "c2" "g" 3 5
  refine ⟨h.1 (some 1) rfl, ?_, h2.2.1 noteA (by decide) (by decide) (by decide)⟩
  obtain ⟨m, hm, -, -, -⟩ := h.2.2 (by intro m hm; simp [emptyDB] at hm) (by omega)
  rw [hm]
  rfl
